import Mathlib

/-!
Shallow embedding of the minigolf repository's Track/Map codec and physics
data model (src/tile.rs, src/map.rs, src/magnet.rs, src/track.rs), together
with theorems settling the specification claims about them.

Conventions of the embedding:
* Rust `i32` values are modelled as `Int`.  Where the source performs `i32`
  shifts and bitwise-or on values provably below `2^8`, the packed result is
  below `2^26`, so `i32` overflow cannot occur and the computation is carried
  out on `Nat` and cast to `Int`.
* Rust `>>` on `i32` is an arithmetic shift (floor division by a power of
  two); Rust `%` is the truncated remainder whose sign follows the dividend.
  Both are modelled explicitly below (`i32Shr`, `i32Rem`).
* Fallible Rust functions returning `Result` are modelled with `Except`;
  `Option` maps to `Option`.
* Strings are modelled through their character lists (`String.data`).
-/

deriving instance DecidableEq for Except

namespace Minigolf

/-! ## tile.rs: enumerations -/

/-- `TileCreationError` (tile.rs). -/
inductive TileCreationError where
  | InvalidSpecial (v : Int)
  | InvalidShape (v : Int)
  | InvalidBackground (v : Int)
  | InvalidForeground (v : Int)
deriving DecidableEq, Repr

/-- `SpecialParse` (tile.rs): discriminants `Normal = 1`, `Special = 2`. -/
inductive SpecialParse where
  | Normal
  | Special
deriving DecidableEq, Repr

/-- `Special` (tile.rs): 28 variants with discriminants 0..27. -/
inductive Special where
  | StartPosition
  | Hole
  | FakeHole
  | MoveableBlock
  | Mine
  | BlownMine
  | BigMine
  | BlownBigMine
  | BlueTeleportStart
  | BlueTeleportExit
  | RedTeleportStart
  | RedTeleportExit
  | YellowTeleportStart
  | YellowTeleportExit
  | GreenTeleportStart
  | GreenTeleportExit
  | FullBreakable
  | ThreeQuaterBreakable
  | HalfBreakable
  | QuaterBreakable
  | MagnetAttract
  | MagnetRepel
  | MoveableBlock2
  | SunkMoveableBlock
  | StartPositionBlue
  | StartPositionRed
  | StartPositionYellow
  | StartPositionGreen
deriving DecidableEq, Repr

/-- `Element` (tile.rs): 24 variants with discriminants 0..23. -/
inductive Element where
  | Grass
  | Dirt
  | Mud
  | Ice
  | SpeedN
  | SpeedNE
  | SpeedE
  | SpeedSE
  | SpeedS
  | SpeedSW
  | SpeedW
  | SpeedNW
  | Water
  | Acid
  | WaterSwamp
  | AcidSwamp
  | Block
  | StickyBlock
  | BouncyBlock
  | FakeBlock
  | OnewayN
  | OnewayE
  | OnewayS
  | OnewayW
deriving DecidableEq, Repr

/-- `Shape` (tile.rs): 28 variants with discriminants 0..27. -/
inductive Shape where
  | Blank
  | BigCircle
  | SmallCircle
  | Diamond
  | TriangleSE
  | TriangleSW
  | TriangleNW
  | TriangleNE
  | RoundedSE
  | RoundedSW
  | RoundedNW
  | RoundedNE
  | RoundedS
  | RoundedE
  | RoundedN
  | RoundedW
  | TriangleN
  | TriangleE
  | TriangleS
  | TriangleW
  | TriangleNS
  | TriangleWE
  | HalfW
  | HalfS
  | QuaterNE
  | QuaterSE
  | QuaterSW
  | QuaterNW
deriving DecidableEq, Repr

/-! ## Rust `as i32` discriminants and `FromPrimitive::from_i32` -/

/-- Discriminant of `SpecialParse` (`SpecialParse::Normal as i32 = 1`). -/
def SpecialParse.toIdx : SpecialParse → Nat
  | .Normal => 1
  | .Special => 2

/-- `derive(FromPrimitive)` for `SpecialParse`: only 1 and 2 are valid. -/
def SpecialParse.fromI32 (n : Int) : Option SpecialParse :=
  match n with
  | 1 => some .Normal
  | 2 => some .Special
  | _ => none

/-- Discriminant of `Special` (declaration order, starting at 0). -/
def Special.toIdx : Special → Nat
  | .StartPosition => 0
  | .Hole => 1
  | .FakeHole => 2
  | .MoveableBlock => 3
  | .Mine => 4
  | .BlownMine => 5
  | .BigMine => 6
  | .BlownBigMine => 7
  | .BlueTeleportStart => 8
  | .BlueTeleportExit => 9
  | .RedTeleportStart => 10
  | .RedTeleportExit => 11
  | .YellowTeleportStart => 12
  | .YellowTeleportExit => 13
  | .GreenTeleportStart => 14
  | .GreenTeleportExit => 15
  | .FullBreakable => 16
  | .ThreeQuaterBreakable => 17
  | .HalfBreakable => 18
  | .QuaterBreakable => 19
  | .MagnetAttract => 20
  | .MagnetRepel => 21
  | .MoveableBlock2 => 22
  | .SunkMoveableBlock => 23
  | .StartPositionBlue => 24
  | .StartPositionRed => 25
  | .StartPositionYellow => 26
  | .StartPositionGreen => 27

/-- `derive(FromPrimitive)` for `Special`: inverse of the discriminants. -/
def Special.fromI32 (n : Int) : Option Special :=
  match n with
  | 0 => some .StartPosition
  | 1 => some .Hole
  | 2 => some .FakeHole
  | 3 => some .MoveableBlock
  | 4 => some .Mine
  | 5 => some .BlownMine
  | 6 => some .BigMine
  | 7 => some .BlownBigMine
  | 8 => some .BlueTeleportStart
  | 9 => some .BlueTeleportExit
  | 10 => some .RedTeleportStart
  | 11 => some .RedTeleportExit
  | 12 => some .YellowTeleportStart
  | 13 => some .YellowTeleportExit
  | 14 => some .GreenTeleportStart
  | 15 => some .GreenTeleportExit
  | 16 => some .FullBreakable
  | 17 => some .ThreeQuaterBreakable
  | 18 => some .HalfBreakable
  | 19 => some .QuaterBreakable
  | 20 => some .MagnetAttract
  | 21 => some .MagnetRepel
  | 22 => some .MoveableBlock2
  | 23 => some .SunkMoveableBlock
  | 24 => some .StartPositionBlue
  | 25 => some .StartPositionRed
  | 26 => some .StartPositionYellow
  | 27 => some .StartPositionGreen
  | _ => none

/-- Discriminant of `Element` (declaration order, starting at 0). -/
def Element.toIdx : Element → Nat
  | .Grass => 0
  | .Dirt => 1
  | .Mud => 2
  | .Ice => 3
  | .SpeedN => 4
  | .SpeedNE => 5
  | .SpeedE => 6
  | .SpeedSE => 7
  | .SpeedS => 8
  | .SpeedSW => 9
  | .SpeedW => 10
  | .SpeedNW => 11
  | .Water => 12
  | .Acid => 13
  | .WaterSwamp => 14
  | .AcidSwamp => 15
  | .Block => 16
  | .StickyBlock => 17
  | .BouncyBlock => 18
  | .FakeBlock => 19
  | .OnewayN => 20
  | .OnewayE => 21
  | .OnewayS => 22
  | .OnewayW => 23

/-- `derive(FromPrimitive)` for `Element`: inverse of the discriminants. -/
def Element.fromI32 (n : Int) : Option Element :=
  match n with
  | 0 => some .Grass
  | 1 => some .Dirt
  | 2 => some .Mud
  | 3 => some .Ice
  | 4 => some .SpeedN
  | 5 => some .SpeedNE
  | 6 => some .SpeedE
  | 7 => some .SpeedSE
  | 8 => some .SpeedS
  | 9 => some .SpeedSW
  | 10 => some .SpeedW
  | 11 => some .SpeedNW
  | 12 => some .Water
  | 13 => some .Acid
  | 14 => some .WaterSwamp
  | 15 => some .AcidSwamp
  | 16 => some .Block
  | 17 => some .StickyBlock
  | 18 => some .BouncyBlock
  | 19 => some .FakeBlock
  | 20 => some .OnewayN
  | 21 => some .OnewayE
  | 22 => some .OnewayS
  | 23 => some .OnewayW
  | _ => none

/-- Discriminant of `Shape` (declaration order, starting at 0). -/
def Shape.toIdx : Shape → Nat
  | .Blank => 0
  | .BigCircle => 1
  | .SmallCircle => 2
  | .Diamond => 3
  | .TriangleSE => 4
  | .TriangleSW => 5
  | .TriangleNW => 6
  | .TriangleNE => 7
  | .RoundedSE => 8
  | .RoundedSW => 9
  | .RoundedNW => 10
  | .RoundedNE => 11
  | .RoundedS => 12
  | .RoundedE => 13
  | .RoundedN => 14
  | .RoundedW => 15
  | .TriangleN => 16
  | .TriangleE => 17
  | .TriangleS => 18
  | .TriangleW => 19
  | .TriangleNS => 20
  | .TriangleWE => 21
  | .HalfW => 22
  | .HalfS => 23
  | .QuaterNE => 24
  | .QuaterSE => 25
  | .QuaterSW => 26
  | .QuaterNW => 27

/-- `derive(FromPrimitive)` for `Shape`: inverse of the discriminants. -/
def Shape.fromI32 (n : Int) : Option Shape :=
  match n with
  | 0 => some .Blank
  | 1 => some .BigCircle
  | 2 => some .SmallCircle
  | 3 => some .Diamond
  | 4 => some .TriangleSE
  | 5 => some .TriangleSW
  | 6 => some .TriangleNW
  | 7 => some .TriangleNE
  | 8 => some .RoundedSE
  | 9 => some .RoundedSW
  | 10 => some .RoundedNW
  | 11 => some .RoundedNE
  | 12 => some .RoundedS
  | 13 => some .RoundedE
  | 14 => some .RoundedN
  | 15 => some .RoundedW
  | 16 => some .TriangleN
  | 17 => some .TriangleE
  | 18 => some .TriangleS
  | 19 => some .TriangleW
  | 20 => some .TriangleNS
  | 21 => some .TriangleWE
  | 22 => some .HalfW
  | 23 => some .HalfS
  | 24 => some .QuaterNE
  | 25 => some .QuaterSE
  | 26 => some .QuaterSW
  | 27 => some .QuaterNW
  | _ => none

/-! ## tile.rs: `Tile` and its codec -/

/-- `Tile` (tile.rs). -/
structure Tile where
  special : Option Special
  shape : Option Shape
  background : Element
  foreground : Element
deriving DecidableEq, Repr

/-- `Special::get_matching_teleport` (tile.rs). -/
def Special.get_matching_teleport : Special → Option Special
  | .RedTeleportStart => some .RedTeleportExit
  | .BlueTeleportStart => some .BlueTeleportExit
  | .GreenTeleportStart => some .GreenTeleportExit
  | .YellowTeleportStart => some .YellowTeleportExit
  | _ => none

/-- `Special::is_teleport_start` (tile.rs). -/
def Special.is_teleport_start : Special → Bool
  | .YellowTeleportStart => true
  | .RedTeleportStart => true
  | .GreenTeleportStart => true
  | .BlueTeleportStart => true
  | _ => false

/-- Rust `>>` on `i32`: arithmetic shift right (floor division by `2^k`). -/
def i32Shr (n : Int) (k : Nat) : Int :=
  match n with
  | .ofNat m => .ofNat (m >>> k)
  | .negSucc m => .negSucc (m >>> k)

/-- Rust `%` on `i32`: truncated remainder, its sign follows the dividend. -/
def i32Rem (a : Int) (n : Nat) : Int :=
  match a with
  | .ofNat m => .ofNat (m % n)
  | .negSucc m => -(Int.ofNat ((m + 1) % n))

/-- `Tile::from_i32s` (tile.rs): validates the four integer fields in the
source's order (special parse, background, foreground, then the secondary
field, read as a `Shape` for `Normal` and as a `Special` otherwise). -/
def Tile.from_i32s (special_value shape_value background_value foreground_value : Int) :
    Except TileCreationError Tile :=
  match SpecialParse.fromI32 special_value with
  | none => .error (.InvalidSpecial special_value)
  | some special_parse =>
    match Element.fromI32 background_value with
    | none => .error (.InvalidBackground background_value)
    | some background =>
      match Element.fromI32 foreground_value with
      | none => .error (.InvalidForeground foreground_value)
      | some foreground =>
        match special_parse with
        | .Normal =>
          match Shape.fromI32 shape_value with
          | none => .error (.InvalidShape shape_value)
          | some shape => .ok ⟨none, some shape, background, foreground⟩
        | .Special =>
          match Special.fromI32 shape_value with
          | none => .error (.InvalidShape shape_value)
          | some special => .ok ⟨some special, none, background, foreground⟩

/-- `Tile::from_tile_code` (tile.rs): extracts the four byte fields with
`>> 24`, `(>> 16) % 256`, `(>> 8) % 256`, `% 256` on the `i32` code, then
validates them exactly as `from_i32s` does (the source duplicates the
chain inline). -/
def Tile.from_tile_code (tile_code : Int) : Except TileCreationError Tile :=
  let special_value := i32Shr tile_code 24
  let shape_value := i32Rem (i32Shr tile_code 16) 256
  let background_value := i32Rem (i32Shr tile_code 8) 256
  let foreground_value := i32Rem tile_code 256
  match SpecialParse.fromI32 special_value with
  | none => .error (.InvalidSpecial special_value)
  | some special_parse =>
    match Element.fromI32 background_value with
    | none => .error (.InvalidBackground background_value)
    | some background =>
      match Element.fromI32 foreground_value with
      | none => .error (.InvalidForeground foreground_value)
      | some foreground =>
        match special_parse with
        | .Normal =>
          match Shape.fromI32 shape_value with
          | none => .error (.InvalidShape shape_value)
          | some shape => .ok ⟨none, some shape, background, foreground⟩
        | .Special =>
          match Special.fromI32 shape_value with
          | none => .error (.InvalidShape shape_value)
          | some special => .ok ⟨some special, none, background, foreground⟩

/-- `Tile::to_tile_code` (tile.rs): `(special << 24) | (shape << 16) |
(background << 8) | foreground` on `i32`.  Every field is below `2^8`, so
the `i32` computation never overflows and is nonnegative; it is therefore
carried out on `Nat`.  The source's `self.shape.unwrap()` panics when both
options are `none`; that case violates the tile validity invariant and is
modelled with the `Blank` placeholder (no theorem below reaches it). -/
def Tile.to_tile_code (t : Tile) : Int :=
  let sp_sh : Nat × Nat :=
    match t.special with
    | none => (SpecialParse.Normal.toIdx, (t.shape.getD .Blank).toIdx)
    | some s => (SpecialParse.Special.toIdx, s.toIdx)
  Int.ofNat ((sp_sh.1 <<< 24) ||| (sp_sh.2 <<< 16) |||
    (t.background.toIdx <<< 8) ||| t.foreground.toIdx)

/-- `impl Default for Tile` (tile.rs). -/
def Tile.defaultTile : Tile :=
  ⟨none, some .Blank, .Grass, .Grass⟩

/-- The tile validity invariant from the spec: exactly one of
`special`/`shape` is populated. -/
def Tile.valid (t : Tile) : Prop :=
  (t.special = none ∧ t.shape.isSome = true) ∨
    (t.special.isSome = true ∧ t.shape = none)

instance (t : Tile) : Decidable t.valid := by
  unfold Tile.valid
  infer_instance

/-! ## map.rs: `Map`, the RLE compressor and the grid decoder -/

/-- `AdSize` (map.rs): `derive(FromPrimitive)` discriminants 0..3. -/
inductive AdSize where
  | Small
  | Medium
  | Large
  | Full
deriving DecidableEq, Repr

/-- `derive(FromPrimitive)` for `AdSize`. -/
def AdSize.fromI32 (n : Int) : Option AdSize :=
  match n with
  | 0 => some .Small
  | 1 => some .Medium
  | 2 => some .Large
  | 3 => some .Full
  | _ => none

/-- `Ad` (map.rs). -/
structure Ad where
  size : AdSize
  x : Int
  y : Int
deriving DecidableEq, Repr

/-- `MapError` (map.rs).  `ParseIntError` carries no data of interest. -/
inductive MapError where
  | OutOfBounds
  | Unexpected (c : Char)
  | UnexpectedEol
  | TileCreation (e : TileCreationError)
  | ParseIntError
deriving DecidableEq, Repr

/-- `Map` (map.rs): a tile buffer and the ad overlays. -/
structure Map where
  tiles : List Tile
  ads : List Ad
deriving DecidableEq, Repr

def Map.WIDTH : Nat := 49

def Map.HEIGHT : Nat := 25

def Map.TILESIZE : Nat := 15

/-- `Map::new` (map.rs): `WIDTH * HEIGHT` default tiles, no ads. -/
def Map.new : Map :=
  ⟨List.replicate (Map.WIDTH * Map.HEIGHT) Tile.defaultTile, []⟩

/-- `derive(Default)` for `Map` (map.rs): empty vectors (not `Map::new`). -/
def Map.defaultMap : Map :=
  ⟨[], []⟩

/-- `Map::char_to_code` (map.rs): `'A'..='Z' → 0..25`, `'a'..='z' → 26..51`. -/
def Map.char_to_code (c : Char) : Option Int :=
  if 'a' ≤ c ∧ c ≤ 'z' then some ((c.toNat : Int) - 97 + 26)
  else if 'A' ≤ c ∧ c ≤ 'Z' then some ((c.toNat : Int) - 65)
  else none

/-- `Map::get_offset` (map.rs): `(offset_y, offset_x)` per back-reference. -/
def Map.get_offset (cur : Char) : Nat × Nat :=
  match cur with
  | 'D' => (0, 1)
  | 'E' => (1, 0)
  | 'F' => (1, 1)
  | 'G' => (0, 2)
  | 'H' => (2, 0)
  | 'I' => (2, 2)
  | _ => (0, 0)

/-- `Map::set_tile` (map.rs).  The tile buffer always has `WIDTH * HEIGHT`
entries when this is called from the decoder, so the in-bounds write
`tiles[y*WIDTH+x] = tile` is modelled with `List.set`. -/
def Map.set_tile (m : Map) (x y : Nat) (tile : Tile) : Except MapError Map :=
  if x < Map.WIDTH ∧ y < Map.HEIGHT then
    .ok { m with tiles := m.tiles.set (y * Map.WIDTH + x) tile }
  else
    .error .OutOfBounds

/-- `Map::get_tile` (map.rs).  The source indexes `tiles[y*WIDTH+x]` after
its bounds check; with the `WIDTH * HEIGHT` length invariant that index is
in range, so the `getD` default is unreachable. -/
def Map.get_tile (m : Map) (x y : Nat) : Option Tile :=
  if x < Map.WIDTH ∧ y < Map.HEIGHT then
    some (m.tiles.getD (y * Map.WIDTH + x) Tile.defaultTile)
  else
    none

/-- `Map::index_to_xy` (map.rs). -/
def Map.index_to_xy (index : Nat) : Nat × Nat :=
  (index % Map.WIDTH, index / Map.WIDTH)

/-- Decimal digits (most significant first) of a positive `n`, fuel-guarded
so that the kernel can evaluate it; any `fuel ≥ n` yields all digits. -/
def natToDecimalGo : Nat → Nat → List Char
  | 0, _ => []
  | fuel + 1, n =>
    if n = 0 then []
    else natToDecimalGo fuel (n / 10) ++ [Nat.digitChar (n % 10)]

/-- Decimal digits of a natural number, as characters; models Rust
`usize::to_string`. -/
def natToDecimal (n : Nat) : List Char :=
  if n = 0 then ['0'] else natToDecimalGo n n

/-- Rust `str::parse::<usize>` as used on the digit accumulators of the
codec: fails on the empty string and on any non-digit character, otherwise
yields the decimal value.  (Integer overflow cannot occur for the string
lengths a Rust process can hold and is not modelled.) -/
def parseNatDigits (l : List Char) : Option Nat :=
  if l = [] then none
  else if l.all Char.isDigit then
    some (l.foldl (fun acc c => acc * 10 + (c.toNat - 48)) 0)
  else none

/-- Rust `str::parse::<i32>` (also `i64`): an optional sign followed by at
least one digit.  (Overflow is not modelled; every claim parses at most
two digits.) -/
def parseI32 (l : List Char) : Option Int :=
  match l with
  | [] => none
  | '+' :: rest => (parseNatDigits rest).map Int.ofNat
  | '-' :: rest => (parseNatDigits rest).map (fun n => -(n : Int))
  | _ => (parseNatDigits l).map Int.ofNat

/-- Loop body of `Map::decompress` (map.rs): digits accumulate into the
pending `count`; a non-digit is repeated `count.parse().unwrap_or(1)` times
and resets the accumulator; trailing digits are discarded. -/
def decompressGo : List Char → List Char → List Char
  | [], _ => []
  | c :: rest, count =>
    if c.isDigit then decompressGo rest (count ++ [c])
    else List.replicate ((parseNatDigits count).getD 1) c ++ decompressGo rest []

/-- `Map::decompress` (map.rs). -/
def Map.decompress (input : String) : String :=
  String.mk (decompressGo input.data [])

/-- Loop body of `Map::compress` (map.rs), with the run counter as the
accumulator: while the next character equals the current one the counter
grows; otherwise the run is emitted (decimal counter first when it exceeds
one) and the counter resets. -/
def compressGo : List Char → Nat → List Char
  | [], _ => []
  | c :: rest, count =>
    match rest with
    | d :: _ =>
      if c = d then compressGo rest (count + 1)
      else (if count > 1 then natToDecimal count else []) ++ c :: compressGo rest 1
    | [] => (if count > 1 then natToDecimal count else []) ++ [c]

/-- `Map::compress` (map.rs). -/
def Map.compress (input : String) : String :=
  String.mk (compressGo input.data 1)

/-- `usize::checked_sub`. -/
def checkedSub (a b : Nat) : Option Nat :=
  if b ≤ a then some (a - b) else none

/-- Row-major cell order of `Map::decode` (map.rs): `y` outer over
`0..HEIGHT`, `x` inner over `0..WIDTH`. -/
def Map.cellOrder : List (Nat × Nat) :=
  (List.range Map.HEIGHT).flatMap fun y => (List.range Map.WIDTH).map fun x => (x, y)

/-- Loop body of `Map::decode` (map.rs), one step per grid cell.  When the
iterator is exhausted at a cell boundary the source's `if let` skips the
cell and the loop keeps running with an empty iterator; tokens `'A'`/`'C'`
consume two further characters, `'B'` three, and `'D'..='I'` copy an
already-decoded tile.  (The source reports `Unexpected(b)` for an
unreachable `char_to_code` failure on `cur`; reproduced as is.) -/
def Map.decodeCells : List (Nat × Nat) → List Char → Map → Except MapError Map
  | [], _, m => .ok m
  | (x, y) :: cells, chars, m =>
    match chars with
    | [] => Map.decodeCells cells [] m
    | cur :: cs =>
      if cur = 'A' ∨ cur = 'C' then
        match cs with
        | [] => .error .UnexpectedEol
        | a :: cs2 =>
          match cs2 with
          | [] => .error .UnexpectedEol
          | b :: rest =>
            match Map.char_to_code a with
            | none => .error (.Unexpected a)
            | some a_code =>
              match Map.char_to_code b with
              | none => .error (.Unexpected b)
              | some b_code =>
                match Map.char_to_code cur with
                | none => .error (.Unexpected b)
                | some cur_code =>
                  match Tile.from_i32s cur_code a_code b_code 0 with
                  | .error e => .error (.TileCreation e)
                  | .ok tile =>
                    match m.set_tile x y tile with
                    | .error e => .error e
                    | .ok m2 => Map.decodeCells cells rest m2
      else if cur = 'B' then
        match cs with
        | [] => .error .UnexpectedEol
        | a :: cs2 =>
          match cs2 with
          | [] => .error .UnexpectedEol
          | b :: cs3 =>
            match cs3 with
            | [] => .error .UnexpectedEol
            | c :: rest =>
              match Map.char_to_code a with
              | none => .error (.Unexpected a)
              | some a_code =>
                match Map.char_to_code b with
                | none => .error (.Unexpected b)
                | some b_code =>
                  match Map.char_to_code c with
                  | none => .error (.Unexpected c)
                  | some c_code =>
                    match Map.char_to_code cur with
                    | none => .error (.Unexpected b)
                    | some cur_code =>
                      match Tile.from_i32s cur_code a_code b_code c_code with
                      | .error e => .error (.TileCreation e)
                      | .ok tile =>
                        match m.set_tile x y tile with
                        | .error e => .error e
                        | .ok m2 => Map.decodeCells cells rest m2
      else if cur = 'D' ∨ cur = 'E' ∨ cur = 'F' ∨ cur = 'G' ∨ cur = 'H' ∨ cur = 'I' then
        let off := Map.get_offset cur
        match checkedSub y off.1 with
        | none => .error .OutOfBounds
        | some new_y =>
          match checkedSub x off.2 with
          | none => .error .OutOfBounds
          | some new_x =>
            match m.get_tile new_x new_y with
            | none => .error .OutOfBounds
            | some t =>
              match m.set_tile x y t with
              | .error e => .error e
              | .ok m2 => Map.decodeCells cells cs m2
      else .error (.Unexpected cur)

/-- `Map::decode` (map.rs). -/
def Map.decode (s : String) : Except MapError Map :=
  Map.decodeCells Map.cellOrder s.data Map.new

/-- `<[char]>::chunks(5)`: successive chunks of five characters, the last
one possibly shorter; never yields an empty chunk. -/
def chunks5 : List Char → List (List Char)
  | [] => []
  | [a] => [[a]]
  | [a, b] => [[a, b]]
  | [a, b, c] => [[a, b, c]]
  | [a, b, c, d] => [[a, b, c, d]]
  | a :: b :: c :: d :: e :: rest => [a, b, c, d, e] :: chunks5 rest

/-- Loop body of `Ad::from_string` (map.rs), one step per 5-character
chunk, with the source's validation order: size-code character, chunk
length, `AdSize` range, then the two 2-digit coordinate fields. -/
def adsFromChunks : List (List Char) → Except MapError (List Ad)
  | [] => .ok []
  | chunk :: rest =>
    match chunk with
    | [] => adsFromChunks rest
    | first :: last_chars =>
      match Map.char_to_code first with
      | none => .error (.Unexpected first)
      | some ad_code =>
        if last_chars.length ≠ 4 then .error .UnexpectedEol
        else
          match AdSize.fromI32 ad_code with
          | none => .error (.Unexpected first)
          | some size =>
            match parseI32 (last_chars.take 2) with
            | none => .error .ParseIntError
            | some x =>
              match parseI32 (last_chars.drop 2) with
              | none => .error .ParseIntError
              | some y => (adsFromChunks rest).map fun ads => ⟨size, x, y⟩ :: ads

/-- `Ad::from_string` (map.rs). -/
def Ad.from_string (input : String) : Except MapError (List Ad) :=
  adsFromChunks (chunks5 input.data)

/-- `Map::from_string` (map.rs): split on the literal `",Ads:"`, decompress
and decode the map part, parse the ad part. -/
def Map.from_string (input : String) : Except MapError Map :=
  let parts := input.splitOn ",Ads:"
  let map_str := (parts.get? 0).getD ""
  let ads_str := (parts.get? 1).getD ""
  match Map.decode (Map.decompress map_str) with
  | .error e => .error e
  | .ok map => (Ad.from_string ads_str).map fun ads => { map with ads := ads }

/-! ## magnet.rs: the precomputed force grid -/

/-- `MagnetForces` (magnet.rs): forces are `[i32; 2]` pairs. -/
structure MagnetForces where
  forces : List (Int × Int)
deriving DecidableEq, Repr

/-- `MagnetForces::MAGNETHEIGHT = Map::HEIGHT * Map::TILESIZE / 5`. -/
def MagnetForces.MAGNETHEIGHT : Nat :=
  Map.HEIGHT * Map.TILESIZE / 5

/-- `MagnetForces::MAGNETWIDTH = Map::WIDTH * Map::TILESIZE / 5`. -/
def MagnetForces.MAGNETWIDTH : Nat :=
  Map.WIDTH * Map.TILESIZE / 5

/-- `MagnetForces::get_force` (magnet.rs): reads the entry at
`y * (Map::WIDTH * Map::TILESIZE / 5) + x / 5`; `Vec::get` is `List.get?`. -/
def MagnetForces.get_force (mf : MagnetForces) (x y : Nat) : Option (Int × Int) :=
  let index := y * (Map.WIDTH * Map.TILESIZE / 5) + x / 5
  mf.forces.get? index

/-- Concrete force grid of full size (`MAGNETWIDTH * MAGNETHEIGHT`
entries) used to exhibit C3's failure: all entries are `(0, 0)` except
index 735, which holds `(1, 0)`. -/
def mfC3 : MagnetForces :=
  ⟨(List.replicate (MagnetForces.MAGNETWIDTH * MagnetForces.MAGNETHEIGHT)
      ((0 : Int), (0 : Int))).set 735 (1, 0)⟩

/-! ## track.rs: the line-oriented track parser -/

/-- `ParseError` (track.rs).  `IOError` is surfaced by the reader in the
source; the pure model parses from a list of lines and never produces it. -/
inductive TrackParseError where
  | IOError
  | InvalidFormat
  | MapErr (e : MapError)
deriving DecidableEq, Repr

/-- `Settings` (track.rs). -/
structure Settings where
  magnets_visible : Bool
  mines_visible : Bool
  teleport_colors : Bool
  illusion_wall_shadows : Bool
  max_players : Int
  min_players : Int
deriving DecidableEq, Repr

/-- `impl Default for Settings` (track.rs). -/
def Settings.defaultSettings : Settings :=
  { magnets_visible := true
    mines_visible := false
    teleport_colors := false
    illusion_wall_shadows := false
    max_players := 1
    min_players := 4 }

/-- `impl FromStr for Settings` (track.rs): exactly six characters; four
`'t'`-flags (assigned in the source's order: mines, magnets, teleport
colors, illusion wall shadows), then one-digit min and max player counts. -/
def Settings.from_str (s : String) : Except TrackParseError Settings :=
  match s.data with
  | [c0, c1, c2, c3, c4, c5] =>
    match parseI32 [c4] with
    | none => .error .InvalidFormat
    | some minp =>
      match parseI32 [c5] with
      | none => .error .InvalidFormat
      | some maxp =>
        .ok { magnets_visible := c1 = 't'
              mines_visible := c0 = 't'
              teleport_colors := c2 = 't'
              illusion_wall_shadows := c3 = 't'
              max_players := maxp
              min_players := minp }
  | _ => .error .InvalidFormat

/-- `TrackTypeFlags` (track.rs) as a bit mask, and the hand-written
`FromPrimitive` mapping category codes 1..6 to single flags. -/
def TrackTypeFlags.fromI32 (n : Int) : Option Nat :=
  match n with
  | 1 => some 1
  | 2 => some 2
  | 3 => some 4
  | 4 => some 8
  | 5 => some 16
  | 6 => some 32
  | _ => none

/-- The `C`-section loop (track.rs): each category code must map to a flag
(`InvalidFormat` otherwise) and the flags are or-combined. -/
def foldFlags : List Int → Nat → Option Nat
  | [], acc => some acc
  | c :: rest, acc =>
    match TrackTypeFlags.fromI32 c with
    | none => none
    | some f => foldFlags rest (acc ||| f)

/-- `Record` (track.rs); `chrono::NaiveDateTime` is modelled by its Unix
seconds value. -/
structure TrackRecord where
  name : String
  timestamp : Int
deriving DecidableEq, Repr

/-- Modelled from the spec: `chrono::NaiveDateTime::from_timestamp_opt`
(an external library call, absent from src/) accepts a Unix seconds value
exactly when it lies in chrono's representable range (roughly ±262,000
years); no claim depends on the precise bounds. -/
def chronoFromTimestampOpt (secs : Int) : Option Int :=
  if -8334601228800 ≤ secs ∧ secs ≤ 8210266876799 then some secs else none

/-- `Track` (track.rs); `categories` is the `TrackTypeFlags` bit mask. -/
structure Track where
  version : Int
  author : String
  name : String
  categories : Nat
  settings : Settings
  ratings : List Int
  stroke_info : List Int
  map : Map
  record : TrackRecord
deriving DecidableEq, Repr

/-- The initial accumulator of `Track::from_reader` (track.rs): note that
`Map::default()` is the derived default (empty vectors), not `Map::new`,
and `NaiveDateTime::default()` is the Unix epoch. -/
def Track.initial : Track :=
  { version := 0
    author := ""
    name := ""
    categories := 0
    settings := Settings.defaultSettings
    ratings := []
    stroke_info := []
    map := Map.defaultMap
    record := { name := "", timestamp := 0 } }

/-- `str::splitn(2, sep)` when a separator occurs: the pieces before and
after the first occurrence; `none` when the separator is absent. -/
def splitFirst (sep : Char) : List Char → Option (List Char × List Char)
  | [] => none
  | c :: rest =>
    if c = sep then some ([], rest)
    else (splitFirst sep rest).map fun p => (c :: p.1, p.2)

/-- `str::split(sep)`: splits at every separator, keeping empty pieces;
the empty string yields one empty piece. -/
def splitAll (sep : Char) : List Char → List (List Char)
  | [] => [[]]
  | c :: rest =>
    let r := splitAll sep rest
    if c = sep then [] :: r
    else
      match r with
      | [] => [[c]]
      | h :: t => (c :: h) :: t

/-- One iteration of the `Track::from_reader` line loop (track.rs): skip
empty lines, split the line at its first space into section and data, and
dispatch on the section letter.  The `R` and `I` sections both parse a
comma-separated integer list with `unwrap_or(0)` per entry and both write
the `ratings` field; `stroke_info` is never written. -/
def Track.parseLine (track : Track) (line : String) : Except TrackParseError Track :=
  if line = "" then .ok track
  else
    match splitFirst ' ' line.data with
    | none => .error .InvalidFormat
    | some (sec, data) =>
      if sec = ['V'] then
        match parseI32 data with
        | none => .error .InvalidFormat
        | some v => .ok { track with version := v }
      else if sec = ['A'] then .ok { track with author := String.mk data }
      else if sec = ['N'] then .ok { track with name := String.mk data }
      else if sec = ['C'] then
        let categories := (splitAll ',' data).map fun cat => (parseI32 cat).getD 0
        match foldFlags categories 0 with
        | none => .error .InvalidFormat
        | some flags => .ok { track with categories := flags }
      else if sec = ['S'] then
        match Settings.from_str (String.mk data) with
        | .error _ => .error .InvalidFormat
        | .ok st => .ok { track with settings := st }
      else if sec = ['T'] then
        match Map.from_string (String.mk data) with
        | .error e => .error (.MapErr e)
        | .ok m => .ok { track with map := m }
      else if sec = ['R'] then
        .ok { track with ratings := (splitAll ',' data).map fun r => (parseI32 r).getD 0 }
      else if sec = ['B'] then
        match splitFirst ',' data with
        | none => .error .InvalidFormat
        | some (nm, ts) =>
          match parseI32 ts with
          | none => .error .InvalidFormat
          | some t =>
            match chronoFromTimestampOpt t with
            | none => .error .InvalidFormat
            | some tv => .ok { track with record := ⟨String.mk nm, tv⟩ }
      else if sec = ['I'] then
        .ok { track with ratings := (splitAll ',' data).map fun r => (parseI32 r).getD 0 }
      else .error .InvalidFormat

/-- The `Track::from_reader` line loop (track.rs), over a pure list of
lines (reader I/O errors are an external concern). -/
def Track.parseLines : List String → Track → Except TrackParseError Track
  | [], t => .ok t
  | l :: rest, t =>
    match Track.parseLine t l with
    | .error e => .error e
    | .ok t2 => Track.parseLines rest t2

/-- `Track::from_reader` (track.rs) on a pure list of lines. -/
def Track.from_lines (lines : List String) : Except TrackParseError Track :=
  Track.parseLines lines Track.initial

/-! ## Theorems settling the claims -/

/-- C10: `get_matching_teleport` returns `some` exactly on the four
teleport-start variants, pairing each start with the exit of its color. -/
theorem C10_teleport_pairing :
    (∀ s : Special, s.get_matching_teleport.isSome = s.is_teleport_start) ∧
    Special.BlueTeleportStart.get_matching_teleport = some .BlueTeleportExit ∧
    Special.RedTeleportStart.get_matching_teleport = some .RedTeleportExit ∧
    Special.YellowTeleportStart.get_matching_teleport = some .YellowTeleportExit ∧
    Special.GreenTeleportStart.get_matching_teleport = some .GreenTeleportExit := by
  refine ⟨fun s => ?_, rfl, rfl, rfl, rfl⟩
  cases s <;> rfl

/-- C9: every tile produced by `Tile::from_i32s` or `Tile::from_tile_code`
has exactly one of `special`/`shape` populated: `shape` when the parse
field is `Normal` (1), `special` when it is `Special` (2). -/
theorem C9_exactly_one_populated :
    (∀ a b c d t, Tile.from_i32s a b c d = .ok t →
      (SpecialParse.fromI32 a = some .Normal ∧ t.special = none ∧ t.shape.isSome = true) ∨
      (SpecialParse.fromI32 a = some .Special ∧ t.special.isSome = true ∧ t.shape = none)) ∧
    (∀ code t, Tile.from_tile_code code = .ok t →
      (SpecialParse.fromI32 (i32Shr code 24) = some .Normal ∧
        t.special = none ∧ t.shape.isSome = true) ∨
      (SpecialParse.fromI32 (i32Shr code 24) = some .Special ∧
        t.special.isSome = true ∧ t.shape = none)) := by
  constructor
  · intro a b c d t h
    unfold Tile.from_i32s at h
    cases hsp : SpecialParse.fromI32 a with
    | none => simp [hsp] at h
    | some sp =>
      rw [hsp] at h
      cases hbg : Element.fromI32 c with
      | none => simp [hbg] at h
      | some bg =>
        rw [hbg] at h
        cases hfg : Element.fromI32 d with
        | none => simp [hfg] at h
        | some fg =>
          rw [hfg] at h
          cases sp with
          | Normal =>
            cases hsh : Shape.fromI32 b with
            | none => simp [hsh] at h
            | some sh =>
              rw [hsh] at h
              cases h
              exact Or.inl ⟨rfl, rfl, rfl⟩
          | Special =>
            cases hsh : Special.fromI32 b with
            | none => simp [hsh] at h
            | some sh =>
              rw [hsh] at h
              cases h
              exact Or.inr ⟨rfl, rfl, rfl⟩
  · intro code t h
    unfold Tile.from_tile_code at h
    cases hsp : SpecialParse.fromI32 (i32Shr code 24) with
    | none => simp [hsp] at h
    | some sp =>
      simp only [hsp] at h
      cases hbg : Element.fromI32 (i32Rem (i32Shr code 8) 256) with
      | none => simp [hbg] at h
      | some bg =>
        simp only [hbg] at h
        cases hfg : Element.fromI32 (i32Rem code 256) with
        | none => simp [hfg] at h
        | some fg =>
          simp only [hfg] at h
          cases sp with
          | Normal =>
            cases hsh : Shape.fromI32 (i32Rem (i32Shr code 16) 256) with
            | none => simp [hsh] at h
            | some sh =>
              simp only [hsh] at h
              cases h
              exact Or.inl ⟨rfl, rfl, rfl⟩
          | Special =>
            cases hsh : Special.fromI32 (i32Rem (i32Shr code 16) 256) with
            | none => simp [hsh] at h
            | some sh =>
              simp only [hsh] at h
              cases h
              exact Or.inr ⟨rfl, rfl, rfl⟩

theorem C9_witness :
    (SpecialParse.fromI32 2 = some .Normal ∧
      (Tile.mk (some .Hole) none .Grass .Grass).special = none ∧
      (Tile.mk (some .Hole) none .Grass .Grass).shape.isSome = true) ∨
    (SpecialParse.fromI32 2 = some .Special ∧
      (Tile.mk (some .Hole) none .Grass .Grass).special.isSome = true ∧
      (Tile.mk (some .Hole) none .Grass .Grass).shape = none) :=
  C9_exactly_one_populated.1 2 1 0 0 _ (by decide)

/-- C3 counterexample: pixel (0, 5) lies inside the course area, its
containing 5-unit cell per the claim is `(5/5)*MAGNETWIDTH + 0/5 = 147`,
whose stored force in `mfC3` is `(0, 0)`; but `get_force` reads the entry
at `5*MAGNETWIDTH = 735`, namely `(1, 0)`. -/
theorem C3_counterexample :
    (0 : Nat) < Map.WIDTH * Map.TILESIZE ∧ (5 : Nat) < Map.HEIGHT * Map.TILESIZE ∧
    mfC3.forces.length = MagnetForces.MAGNETWIDTH * MagnetForces.MAGNETHEIGHT ∧
    mfC3.forces.get? (5 / 5 * MagnetForces.MAGNETWIDTH + 0 / 5) = some (0, 0) ∧
    MagnetForces.get_force mfC3 0 5 = some (1, 0) ∧
    ((1, 0) : Int × Int) ≠ (0, 0) := by
  refine ⟨by decide, by decide, by simp [mfC3], ?_, ?_, by decide⟩
  · show mfC3.forces.get? 147 = some (0, 0)
    rw [mfC3, List.get?_eq_getElem?, List.getElem?_set_ne (by decide)]
    rw [List.getElem?_replicate, if_pos (by decide)]
  · show mfC3.forces.get? 735 = some (1, 0)
    rw [mfC3, List.get?_eq_getElem?, List.getElem?_set_self (by simp only [List.length_replicate]; decide)]

/-- C3 amended: `get_force` multiplies the full `y` by `MAGNETWIDTH`
(treating `y` as a cell row, not a pixel row): on a standard-size grid it
returns the entry at `y*MAGNETWIDTH + x/5` when that index is in range and
none otherwise. -/
theorem C3_get_force_indexing (mf : MagnetForces) (x y : Nat)
    (hlen : mf.forces.length = MagnetForces.MAGNETWIDTH * MagnetForces.MAGNETHEIGHT) :
    (y * MagnetForces.MAGNETWIDTH + x / 5 <
        MagnetForces.MAGNETWIDTH * MagnetForces.MAGNETHEIGHT →
      ∃ f, MagnetForces.get_force mf x y = some f ∧
        mf.forces.get? (y * MagnetForces.MAGNETWIDTH + x / 5) = some f) ∧
    (MagnetForces.MAGNETWIDTH * MagnetForces.MAGNETHEIGHT ≤
        y * MagnetForces.MAGNETWIDTH + x / 5 →
      MagnetForces.get_force mf x y = none) := by
  constructor
  · intro hlt
    rw [← hlen] at hlt
    have hf := List.get?_eq_get hlt
    exact ⟨_, hf, hf⟩
  · intro hge
    rw [← hlen] at hge
    exact List.get?_eq_none.2 hge

theorem C3_witness :
    MagnetForces.get_force mfC3 3 5 = mfC3.forces.get? (5 * MagnetForces.MAGNETWIDTH + 3 / 5) := by
  obtain ⟨f, h1, h2⟩ := (C3_get_force_indexing mfC3 3 5 (by simp [mfC3])).1 (by decide)
  rw [h1, h2]

/-- Two decimal digit characters parse to their two-digit value. -/
theorem parseI32_two_digits (d1 d2 : Nat) (h1 : d1 < 10) (h2 : d2 < 10) :
    parseI32 [Nat.digitChar d1, Nat.digitChar d2] = some ((10 * d1 + d2 : Nat) : Int) := by
  interval_cases d1 <;> interval_cases d2 <;> decide

/-- C4 counterexample: the size mapping is 0-based, not 1-based: `'A'`
(code 0) yields `Small` and `'B'` (code 1) yields `Medium`, while the
claim's table maps code 1 to `Small`. -/
theorem C4_counterexample :
    Map.char_to_code 'A' = some 0 ∧ Map.char_to_code 'B' = some 1 ∧
    Ad.from_string "A0000" = .ok [⟨.Small, 0, 0⟩] ∧
    Ad.from_string "B0000" = .ok [⟨.Medium, 0, 0⟩] := by
  exact ⟨by decide, by decide, by decide, by decide⟩

/-- C4 amended: a well-formed 5-character chunk parses as a 0-based
AdSize ordinal (code 0 → Small, 1 → Medium, 2 → Large, 3 → Full) followed
by a 2-digit x field and a 2-digit y field. -/
theorem C4_ad_chunk (c : Char) (k : Int) (sz : AdSize) (d1 d2 d3 d4 : Nat)
    (hc : Map.char_to_code c = some k) (hsz : AdSize.fromI32 k = some sz)
    (h1 : d1 < 10) (h2 : d2 < 10) (h3 : d3 < 10) (h4 : d4 < 10) :
    Ad.from_string (String.mk [c, Nat.digitChar d1, Nat.digitChar d2, Nat.digitChar d3,
      Nat.digitChar d4]) = .ok [⟨sz, ((10 * d1 + d2 : Nat) : Int), ((10 * d3 + d4 : Nat) : Int)⟩] ∧
    (k = 0 → sz = .Small) ∧ (k = 1 → sz = .Medium) ∧
    (k = 2 → sz = .Large) ∧ (k = 3 → sz = .Full) := by
  refine ⟨?_, ?_, ?_, ?_, ?_⟩
  · simp [Ad.from_string, chunks5, adsFromChunks, hc, hsz, Except.map,
      parseI32_two_digits d1 d2 h1 h2, parseI32_two_digits d3 d4 h3 h4]
  · intro hk; subst hk; exact (Option.some.inj hsz).symm
  · intro hk; subst hk; exact (Option.some.inj hsz).symm
  · intro hk; subst hk; exact (Option.some.inj hsz).symm
  · intro hk; subst hk; exact (Option.some.inj hsz).symm

theorem C4_witness :
    Ad.from_string (String.mk ['A', Nat.digitChar 2, Nat.digitChar 3, Nat.digitChar 0,
      Nat.digitChar 9]) = .ok [⟨.Small, ((10 * 2 + 3 : Nat) : Int), ((10 * 0 + 9 : Nat) : Int)⟩] :=
  (C4_ad_chunk 'A' 0 .Small 2 3 0 9 (by decide) (by decide) (by decide) (by decide)
    (by decide) (by decide)).1

/-- C5 counterexample: an `R` (or `I`) section entry that is not a valid
integer does not abort the parse; it is replaced by 0 and the parse
succeeds. -/
theorem C5_counterexample :
    Track.from_lines ["R 1,x,3"] = .ok { Track.initial with ratings := [1, 0, 3] } ∧
    Track.from_lines ["I 1,x,3"] = .ok { Track.initial with ratings := [1, 0, 3] } := by
  exact ⟨by decide, by decide⟩

/-- C5 amended: for the `R` and `I` sections every comma-separated entry
is parsed with a fallback of 0 (`unwrap_or(0)`), so the parse succeeds for
arbitrary section data. -/
theorem C5_ratings_default_zero (data : List Char) :
    Track.from_lines [String.mk ('R' :: ' ' :: data)] =
      .ok { Track.initial with ratings := (splitAll ',' data).map fun r => (parseI32 r).getD 0 } ∧
    Track.from_lines [String.mk ('I' :: ' ' :: data)] =
      .ok { Track.initial with ratings := (splitAll ',' data).map fun r => (parseI32 r).getD 0 } := by
  constructor <;>
    simp [Track.from_lines, Track.parseLines, Track.parseLine, splitFirst, String.ext_iff]


/-- Every in-range code denotes an `Element`. -/
theorem element_fromI32_total (n : Int) (h0 : 0 ≤ n) (h : n < 24) :
    ∃ e, Element.fromI32 n = some e := by
  interval_cases n <;> exact ⟨_, rfl⟩

/-- Every in-range code denotes a `Shape`. -/
theorem shape_fromI32_total (n : Int) (h0 : 0 ≤ n) (h : n < 28) :
    ∃ s, Shape.fromI32 n = some s := by
  interval_cases n <;> exact ⟨_, rfl⟩

/-- Every in-range code denotes a `Special`. -/
theorem special_fromI32_total (n : Int) (h0 : 0 ≤ n) (h : n < 28) :
    ∃ s, Special.fromI32 n = some s := by
  interval_cases n <;> exact ⟨_, rfl⟩

/-- C2: an `'A'` or `'C'` token followed by two alphabet characters builds
the tile `from_i32s (code cur, code a, code b, 0)` and stores it at the
current cell; and `from_i32s` succeeds whenever its fields are in the
codec's valid ranges. -/
theorem C2_inline_tile_token (cur a b : Char) (x y : Nat) (cells : List (Nat × Nat))
    (rest : List Char) (m : Map) (a_code b_code cur_code : Int) (t : Tile)
    (hcur : cur = 'A' ∨ cur = 'C')
    (ha : Map.char_to_code a = some a_code)
    (hb : Map.char_to_code b = some b_code)
    (hc : Map.char_to_code cur = some cur_code)
    (hx : x < Map.WIDTH) (hy : y < Map.HEIGHT)
    (ht : Tile.from_i32s cur_code a_code b_code 0 = .ok t) :
    Map.decodeCells ((x, y) :: cells) (cur :: a :: b :: rest) m =
      Map.decodeCells cells rest { m with tiles := m.tiles.set (y * Map.WIDTH + x) t } ∧
    (∀ sp sh bg fg : Int, (sp = 1 ∨ sp = 2) → 0 ≤ sh → sh < 28 → 0 ≤ bg → bg < 24 →
      0 ≤ fg → fg < 24 → ∃ t2, Tile.from_i32s sp sh bg fg = .ok t2) := by
  constructor
  · show (if cur = 'A' ∨ cur = 'C' then _ else _ : Except MapError Map) = _
    rw [if_pos hcur]
    simp only [ha, hb, hc, ht, Map.set_tile, if_pos (And.intro hx hy)]
  · intro sp sh bg fg hsp hsh0 hsh hbg0 hbg1 hfg0 hfg1
    obtain ⟨bge, hbge⟩ := element_fromI32_total bg hbg0 hbg1
    obtain ⟨fge, hfge⟩ := element_fromI32_total fg hfg0 hfg1
    rcases hsp with h | h <;> subst h
    · obtain ⟨she, hshe⟩ := shape_fromI32_total sh hsh0 hsh
      exact ⟨⟨none, some she, bge, fge⟩,
        by simp [Tile.from_i32s, SpecialParse.fromI32, hbge, hfge, hshe]⟩
    · obtain ⟨she, hshe⟩ := special_fromI32_total sh hsh0 hsh
      exact ⟨⟨some she, none, bge, fge⟩,
        by simp [Tile.from_i32s, SpecialParse.fromI32, hbge, hfge, hshe]⟩

theorem C2_witness :
    Map.decodeCells [(0, 0)] ['C', 'I', 'D'] Map.new =
      Map.decodeCells [] [] { Map.new with
        tiles := Map.new.tiles.set (0 * Map.WIDTH + 0)
          ⟨some .BlueTeleportStart, none, .Ice, .Grass⟩ } :=
  (C2_inline_tile_token 'C' 'I' 'D' 0 0 [] [] Map.new 8 3 2
    ⟨some .BlueTeleportStart, none, .Ice, .Grass⟩ (Or.inr rfl) (by decide) (by decide)
    (by decide) (by decide) (by decide) (by decide)).1

/-- Unfolding lemma for a back-reference step of the decoder. -/
theorem decodeCells_backref (cur : Char) (x y : Nat) (cells : List (Nat × Nat))
    (rest : List Char) (m : Map)
    (hAC : ¬(cur = 'A' ∨ cur = 'C')) (hB : ¬cur = 'B')
    (hDI : cur = 'D' ∨ cur = 'E' ∨ cur = 'F' ∨ cur = 'G' ∨ cur = 'H' ∨ cur = 'I') :
    Map.decodeCells ((x, y) :: cells) (cur :: rest) m =
      (match checkedSub y (Map.get_offset cur).1 with
       | none => .error .OutOfBounds
       | some new_y =>
         match checkedSub x (Map.get_offset cur).2 with
         | none => .error .OutOfBounds
         | some new_x =>
           match m.get_tile new_x new_y with
           | none => .error .OutOfBounds
           | some t =>
             match m.set_tile x y t with
             | .error e => .error e
             | .ok m2 => Map.decodeCells cells rest m2) := by
  show (if cur = 'A' ∨ cur = 'C' then _ else _ : Except MapError Map) = _
  rw [if_neg hAC, if_neg hB, if_pos hDI]

/-- Running out of characters at a cell boundary is not an error: the
remaining cells are skipped and the current map is returned unchanged. -/
theorem decodeCells_nil_chars (cells : List (Nat × Nat)) (m : Map) :
    Map.decodeCells cells [] m = .ok m := by
  induction cells with
  | nil => rfl
  | cons hd tl ih => obtain ⟨hx, hy⟩ := hd; exact ih

/-- C7: every back-reference letter carries its fixed `(row, col)` offset
pair; in range it copies the already-decoded tile at `(x-col, y-row)` into
the current cell, and an underflowing reference fails with `OutOfBounds` —
in particular a `'D'` token at a cell with `x = 0`. -/
theorem C7_backreference (cur : Char) (x y : Nat) (cells : List (Nat × Nat))
    (rest : List Char) (m : Map)
    (hcur : cur = 'D' ∨ cur = 'E' ∨ cur = 'F' ∨ cur = 'G' ∨ cur = 'H' ∨ cur = 'I')
    (hx : x < Map.WIDTH) (hy : y < Map.HEIGHT) :
    (Map.get_offset 'D' = (0, 1) ∧ Map.get_offset 'E' = (1, 0) ∧ Map.get_offset 'F' = (1, 1) ∧
      Map.get_offset 'G' = (0, 2) ∧ Map.get_offset 'H' = (2, 0) ∧ Map.get_offset 'I' = (2, 2)) ∧
    ((Map.get_offset cur).1 ≤ y → (Map.get_offset cur).2 ≤ x →
      Map.decodeCells ((x, y) :: cells) (cur :: rest) m =
        Map.decodeCells cells rest { m with tiles := (m.tiles.set (y * Map.WIDTH + x)
          (m.tiles.getD ((y - (Map.get_offset cur).1) * Map.WIDTH + (x - (Map.get_offset cur).2))
            Tile.defaultTile)) }) ∧
    (y < (Map.get_offset cur).1 ∨ x < (Map.get_offset cur).2 →
      Map.decodeCells ((x, y) :: cells) (cur :: rest) m = .error .OutOfBounds) ∧
    (cur = 'D' → x = 0 → Map.decodeCells ((x, y) :: cells) (cur :: rest) m = .error .OutOfBounds)
    := by
  have hAC : ¬(cur = 'A' ∨ cur = 'C') := by
    rcases hcur with h | h | h | h | h | h <;> subst h <;> decide
  have hB : ¬cur = 'B' := by
    rcases hcur with h | h | h | h | h | h <;> subst h <;> decide
  have step := decodeCells_backref cur x y cells rest m hAC hB hcur
  have hoob : y < (Map.get_offset cur).1 ∨ x < (Map.get_offset cur).2 →
      Map.decodeCells ((x, y) :: cells) (cur :: rest) m = .error .OutOfBounds := by
    intro h
    rw [step]
    rcases h with h | h
    · rw [checkedSub, if_neg (by omega)]
    · rw [checkedSub]
      by_cases hrow : (Map.get_offset cur).1 ≤ y
      · rw [if_pos hrow]
        show (match checkedSub x (Map.get_offset cur).2 with
          | none => (.error .OutOfBounds : Except MapError Map)
          | some new_x => _) = _
        rw [checkedSub, if_neg (by omega)]
      · rw [if_neg hrow]
  refine ⟨⟨rfl, rfl, rfl, rfl, rfl, rfl⟩, ?_, hoob, ?_⟩
  · intro hrow hcol
    rw [step, checkedSub, if_pos hrow, checkedSub, if_pos hcol]
    show (match m.get_tile (x - (Map.get_offset cur).2) (y - (Map.get_offset cur).1) with
      | none => (.error .OutOfBounds : Except MapError Map)
      | some t => match m.set_tile x y t with
        | .error e => .error e
        | .ok m2 => Map.decodeCells cells rest m2) = _
    rw [Map.get_tile, if_pos ⟨(by omega : x - (Map.get_offset cur).2 < Map.WIDTH),
      (by omega : y - (Map.get_offset cur).1 < Map.HEIGHT)⟩]
    show (match m.set_tile x y (m.tiles.getD
        ((y - (Map.get_offset cur).1) * Map.WIDTH + (x - (Map.get_offset cur).2))
        Tile.defaultTile) with
      | .error e => (.error e : Except MapError Map)
      | .ok m2 => Map.decodeCells cells rest m2) = _
    rw [Map.set_tile, if_pos ⟨hx, hy⟩]
  · intro hD hx0
    subst hD
    exact hoob (Or.inr (by rw [hx0]; decide))

theorem C7_witness :
    Map.decodeCells [(0, 0)] ['D'] Map.new = .error .OutOfBounds := by
  have h := C7_backreference 'D' 0 0 [] [] Map.new (Or.inl rfl) (by decide) (by decide)
  exact h.2.2.2 rfl rfl

/-- C8: exhausting the input in the middle of an `'A'`/`'B'`/`'C'` token is
an `UnexpectedEol` error, while exhausting it at a cell boundary succeeds
and leaves the map as it stands — so a decode of a short stream keeps the
default tile in every unreached cell of the fresh `Map::new` grid. -/
theorem C8_truncated_input :
    (∀ cells m, Map.decodeCells cells [] m = .ok m) ∧
    (∀ x y cells m cur, (cur = 'A' ∨ cur = 'B' ∨ cur = 'C') →
      Map.decodeCells ((x, y) :: cells) [cur] m = .error .UnexpectedEol) ∧
    (∀ x y cells m cur a, (cur = 'A' ∨ cur = 'B' ∨ cur = 'C') →
      Map.decodeCells ((x, y) :: cells) [cur, a] m = .error .UnexpectedEol) ∧
    (∀ x y cells m a b, Map.decodeCells ((x, y) :: cells) ['B', a, b] m = .error .UnexpectedEol) ∧
    Map.decode "" = .ok Map.new ∧
    (∀ x y, x < Map.WIDTH → y < Map.HEIGHT → Map.new.get_tile x y = some Tile.defaultTile) := by
  refine ⟨decodeCells_nil_chars, ?_, ?_, ?_, ?_, ?_⟩
  · rintro x y cells m cur (h | h | h) <;> subst h <;> rfl
  · rintro x y cells m cur a (h | h | h) <;> subst h <;> rfl
  · intro x y cells m a b; rfl
  · exact decodeCells_nil_chars Map.cellOrder Map.new
  · intro x y hx hy
    rw [Map.get_tile, if_pos ⟨hx, hy⟩]
    have hlt : y * Map.WIDTH + x < Map.WIDTH * Map.HEIGHT := by
      have h1 : y * Map.WIDTH ≤ (Map.HEIGHT - 1) * Map.WIDTH :=
        Nat.mul_le_mul_right _ (by omega)
      have h2 : (Map.HEIGHT - 1) * Map.WIDTH + Map.WIDTH = Map.WIDTH * Map.HEIGHT := by decide
      omega
    show some ((List.replicate (Map.WIDTH * Map.HEIGHT) Tile.defaultTile).getD
      (y * Map.WIDTH + x) Tile.defaultTile) = _
    rw [List.getD_eq_getElem?_getD, List.getElem?_replicate, if_pos hlt]
    rfl

theorem C8_witness :
    Map.decodeCells [(3, 0)] [] Map.new = .ok Map.new ∧
    Map.decodeCells [(0, 0)] ['A'] Map.new = .error .UnexpectedEol ∧
    Map.decodeCells [(0, 0)] ['C', 'a'] Map.new = .error .UnexpectedEol ∧
    Map.decodeCells [(0, 0)] ['B', 'a', 'b'] Map.new = .error .UnexpectedEol ∧
    Map.new.get_tile 7 3 = some Tile.defaultTile :=
  ⟨C8_truncated_input.1 [(3, 0)] Map.new,
    C8_truncated_input.2.1 0 0 [] Map.new 'A' (Or.inl rfl),
    C8_truncated_input.2.2.1 0 0 [] Map.new 'C' 'a' (Or.inr (Or.inr rfl)),
    C8_truncated_input.2.2.2.1 0 0 [] Map.new 'a' 'b',
    C8_truncated_input.2.2.2.2.2 7 3 (by decide) (by decide)⟩


theorem shape_toIdx_lt (s : Shape) : s.toIdx < 28 := by cases s <;> decide

theorem special_toIdx_lt (s : Special) : s.toIdx < 28 := by cases s <;> decide

theorem element_toIdx_lt (e : Element) : e.toIdx < 24 := by cases e <;> decide

theorem shape_fromI32_toIdx (s : Shape) : Shape.fromI32 ((s.toIdx : Nat) : Int) = some s := by
  cases s <;> rfl

theorem special_fromI32_toIdx (s : Special) : Special.fromI32 ((s.toIdx : Nat) : Int) = some s := by
  cases s <;> rfl

theorem element_fromI32_toIdx (e : Element) : Element.fromI32 ((e.toIdx : Nat) : Int) = some e := by
  cases e <;> rfl

/-- The four byte fields of a tile code occupy disjoint bit ranges, so the
source's bitwise-or packing is plain positional arithmetic. -/
theorem pack_fields (sp s b f : Nat) (hs : s < 256) (hb : b < 256) (hf : f < 256) :
    (sp <<< 24) ||| (s <<< 16) ||| (b <<< 8) ||| f =
      sp * 2 ^ 24 + s * 2 ^ 16 + b * 2 ^ 8 + f := by
  have e1 : (b <<< 8) ||| f = b * 2 ^ 8 + f := by
    rw [Nat.shiftLeft_eq, Nat.mul_comm]
    exact (Nat.mul_add_lt_is_or hf b).symm
  have e2 : (s <<< 16) ||| (b * 2 ^ 8 + f) = s * 2 ^ 16 + (b * 2 ^ 8 + f) := by
    rw [Nat.shiftLeft_eq, Nat.mul_comm]
    exact (Nat.mul_add_lt_is_or (by omega) s).symm
  have e3 : (sp <<< 24) ||| (s * 2 ^ 16 + (b * 2 ^ 8 + f)) =
      sp * 2 ^ 24 + (s * 2 ^ 16 + (b * 2 ^ 8 + f)) := by
    rw [Nat.shiftLeft_eq, Nat.mul_comm]
    exact (Nat.mul_add_lt_is_or (by omega) sp).symm
  rw [Nat.or_assoc, Nat.or_assoc, e1, e2, e3]
  omega

/-- C1: decoding the encoding of any valid tile returns the tile. -/
theorem C1_tile_codec_roundtrip (t : Tile) (h : t.valid) :
    Tile.from_tile_code t.to_tile_code = .ok t := by
  obtain ⟨sp, shp, bg, fg⟩ := t
  have hB := element_toIdx_lt bg
  have hF := element_toIdx_lt fg
  rcases h with ⟨hs, hsh⟩ | ⟨hs, hsh⟩
  · obtain rfl : sp = none := hs
    obtain ⟨sh, rfl⟩ : ∃ u, shp = some u := Option.isSome_iff_exists.mp hsh
    have hS := shape_toIdx_lt sh
    have hcode : Tile.to_tile_code ⟨none, some sh, bg, fg⟩ =
        Int.ofNat (1 * 2 ^ 24 + sh.toIdx * 2 ^ 16 + bg.toIdx * 2 ^ 8 + fg.toIdx) := by
      show Int.ofNat ((1 <<< 24) ||| (sh.toIdx <<< 16) ||| (bg.toIdx <<< 8) ||| fg.toIdx) = _
      rw [pack_fields 1 sh.toIdx bg.toIdx fg.toIdx (by omega) (by omega) (by omega)]
    rw [hcode]
    have e24 : i32Shr (Int.ofNat (1 * 2 ^ 24 + sh.toIdx * 2 ^ 16 + bg.toIdx * 2 ^ 8 + fg.toIdx))
        24 = (1 : Int) := by
      show Int.ofNat ((1 * 2 ^ 24 + sh.toIdx * 2 ^ 16 + bg.toIdx * 2 ^ 8 + fg.toIdx) >>> 24) = _
      rw [Nat.shiftRight_eq_div_pow]
      have : (1 * 2 ^ 24 + sh.toIdx * 2 ^ 16 + bg.toIdx * 2 ^ 8 + fg.toIdx) / 2 ^ 24 = 1 := by
        omega
      rw [this]; rfl
    have e16 : i32Rem (i32Shr
        (Int.ofNat (1 * 2 ^ 24 + sh.toIdx * 2 ^ 16 + bg.toIdx * 2 ^ 8 + fg.toIdx)) 16) 256 =
        Int.ofNat sh.toIdx := by
      show Int.ofNat ((1 * 2 ^ 24 + sh.toIdx * 2 ^ 16 + bg.toIdx * 2 ^ 8 + fg.toIdx) >>> 16
        % 256) = _
      rw [Nat.shiftRight_eq_div_pow]
      have : (1 * 2 ^ 24 + sh.toIdx * 2 ^ 16 + bg.toIdx * 2 ^ 8 + fg.toIdx) / 2 ^ 16 % 256 =
          sh.toIdx := by omega
      rw [this]
    have e8 : i32Rem (i32Shr
        (Int.ofNat (1 * 2 ^ 24 + sh.toIdx * 2 ^ 16 + bg.toIdx * 2 ^ 8 + fg.toIdx)) 8) 256 =
        Int.ofNat bg.toIdx := by
      show Int.ofNat ((1 * 2 ^ 24 + sh.toIdx * 2 ^ 16 + bg.toIdx * 2 ^ 8 + fg.toIdx) >>> 8
        % 256) = _
      rw [Nat.shiftRight_eq_div_pow]
      have : (1 * 2 ^ 24 + sh.toIdx * 2 ^ 16 + bg.toIdx * 2 ^ 8 + fg.toIdx) / 2 ^ 8 % 256 =
          bg.toIdx := by omega
      rw [this]
    have e0 : i32Rem
        (Int.ofNat (1 * 2 ^ 24 + sh.toIdx * 2 ^ 16 + bg.toIdx * 2 ^ 8 + fg.toIdx)) 256 =
        Int.ofNat fg.toIdx := by
      show Int.ofNat ((1 * 2 ^ 24 + sh.toIdx * 2 ^ 16 + bg.toIdx * 2 ^ 8 + fg.toIdx) % 256) = _
      have : (1 * 2 ^ 24 + sh.toIdx * 2 ^ 16 + bg.toIdx * 2 ^ 8 + fg.toIdx) % 256 =
          fg.toIdx := by omega
      rw [this]
    simp only [Tile.from_tile_code, e24, e16, e8, e0]
    simp [SpecialParse.fromI32, shape_fromI32_toIdx, element_fromI32_toIdx]
  · obtain rfl : shp = none := hsh
    obtain ⟨s, rfl⟩ : ∃ u, sp = some u := Option.isSome_iff_exists.mp hs
    have hS := special_toIdx_lt s
    have hcode : Tile.to_tile_code ⟨some s, none, bg, fg⟩ =
        Int.ofNat (2 * 2 ^ 24 + s.toIdx * 2 ^ 16 + bg.toIdx * 2 ^ 8 + fg.toIdx) := by
      show Int.ofNat ((2 <<< 24) ||| (s.toIdx <<< 16) ||| (bg.toIdx <<< 8) ||| fg.toIdx) = _
      rw [pack_fields 2 s.toIdx bg.toIdx fg.toIdx (by omega) (by omega) (by omega)]
    rw [hcode]
    have e24 : i32Shr (Int.ofNat (2 * 2 ^ 24 + s.toIdx * 2 ^ 16 + bg.toIdx * 2 ^ 8 + fg.toIdx))
        24 = (2 : Int) := by
      show Int.ofNat ((2 * 2 ^ 24 + s.toIdx * 2 ^ 16 + bg.toIdx * 2 ^ 8 + fg.toIdx) >>> 24) = _
      rw [Nat.shiftRight_eq_div_pow]
      have : (2 * 2 ^ 24 + s.toIdx * 2 ^ 16 + bg.toIdx * 2 ^ 8 + fg.toIdx) / 2 ^ 24 = 2 := by
        omega
      rw [this]; rfl
    have e16 : i32Rem (i32Shr
        (Int.ofNat (2 * 2 ^ 24 + s.toIdx * 2 ^ 16 + bg.toIdx * 2 ^ 8 + fg.toIdx)) 16) 256 =
        Int.ofNat s.toIdx := by
      show Int.ofNat ((2 * 2 ^ 24 + s.toIdx * 2 ^ 16 + bg.toIdx * 2 ^ 8 + fg.toIdx) >>> 16
        % 256) = _
      rw [Nat.shiftRight_eq_div_pow]
      have : (2 * 2 ^ 24 + s.toIdx * 2 ^ 16 + bg.toIdx * 2 ^ 8 + fg.toIdx) / 2 ^ 16 % 256 =
          s.toIdx := by omega
      rw [this]
    have e8 : i32Rem (i32Shr
        (Int.ofNat (2 * 2 ^ 24 + s.toIdx * 2 ^ 16 + bg.toIdx * 2 ^ 8 + fg.toIdx)) 8) 256 =
        Int.ofNat bg.toIdx := by
      show Int.ofNat ((2 * 2 ^ 24 + s.toIdx * 2 ^ 16 + bg.toIdx * 2 ^ 8 + fg.toIdx) >>> 8
        % 256) = _
      rw [Nat.shiftRight_eq_div_pow]
      have : (2 * 2 ^ 24 + s.toIdx * 2 ^ 16 + bg.toIdx * 2 ^ 8 + fg.toIdx) / 2 ^ 8 % 256 =
          bg.toIdx := by omega
      rw [this]
    have e0 : i32Rem
        (Int.ofNat (2 * 2 ^ 24 + s.toIdx * 2 ^ 16 + bg.toIdx * 2 ^ 8 + fg.toIdx)) 256 =
        Int.ofNat fg.toIdx := by
      show Int.ofNat ((2 * 2 ^ 24 + s.toIdx * 2 ^ 16 + bg.toIdx * 2 ^ 8 + fg.toIdx) % 256) = _
      have : (2 * 2 ^ 24 + s.toIdx * 2 ^ 16 + bg.toIdx * 2 ^ 8 + fg.toIdx) % 256 =
          fg.toIdx := by omega
      rw [this]
    simp only [Tile.from_tile_code, e24, e16, e8, e0]
    simp [SpecialParse.fromI32, special_fromI32_toIdx, element_fromI32_toIdx]

theorem C1_witness :
    Tile.valid ⟨some .Hole, none, .Ice, .Mud⟩ ∧
    Tile.from_tile_code (Tile.to_tile_code ⟨some .Hole, none, .Ice, .Mud⟩) =
      .ok ⟨some .Hole, none, .Ice, .Mud⟩ :=
  ⟨by decide, C1_tile_codec_roundtrip ⟨some .Hole, none, .Ice, .Mud⟩ (by decide)⟩


theorem digitChar_isDigit {d : Nat} (h : d < 10) : (Nat.digitChar d).isDigit = true := by
  interval_cases d <;> decide

theorem digitChar_toNat {d : Nat} (h : d < 10) : (Nat.digitChar d).toNat - 48 = d := by
  interval_cases d <;> decide

theorem natToDecimalGo_all_isDigit : ∀ fuel n, (natToDecimalGo fuel n).all Char.isDigit = true := by
  intro fuel
  induction fuel with
  | zero => intro n; rfl
  | succ fuel ih =>
    intro n
    by_cases h : n = 0
    · simp [natToDecimalGo, h]
    · simp only [natToDecimalGo, if_neg h, List.all_append, ih (n / 10), Bool.true_and,
        List.all_cons, List.all_nil, Bool.and_true]
      exact digitChar_isDigit (Nat.mod_lt n (by omega))

theorem natToDecimalGo_ne_nil {fuel n : Nat} (hn : n ≠ 0) (hf : 0 < fuel) :
    natToDecimalGo fuel n ≠ [] := by
  cases fuel with
  | zero => omega
  | succ fuel =>
    simp only [natToDecimalGo, if_neg hn]
    intro h
    exact absurd (List.append_eq_nil.mp h).2 (by simp)

theorem natToDecimalGo_foldl : ∀ fuel n acc, n ≤ fuel →
    List.foldl (fun a c => a * 10 + (c.toNat - 48)) acc (natToDecimalGo fuel n) =
      acc * 10 ^ (natToDecimalGo fuel n).length + n := by
  intro fuel
  induction fuel with
  | zero => intro n acc hn; interval_cases n; simp [natToDecimalGo]
  | succ fuel ih =>
    intro n acc hn
    by_cases h : n = 0
    · subst h; simp [natToDecimalGo]
    · rw [natToDecimalGo, if_neg h, List.foldl_append, ih (n / 10) acc (by omega),
        List.length_append]
      simp only [List.foldl_cons, List.foldl_nil, List.length_cons, List.length_nil,
        Nat.zero_add]
      rw [digitChar_toNat (Nat.mod_lt n (by omega))]
      have hdm : 10 * (n / 10) + n % 10 = n := Nat.div_add_mod n 10
      calc (acc * 10 ^ (natToDecimalGo fuel (n / 10)).length + n / 10) * 10 + n % 10
          = acc * (10 ^ (natToDecimalGo fuel (n / 10)).length * 10) +
            (10 * (n / 10) + n % 10) := by ring
        _ = acc * 10 ^ ((natToDecimalGo fuel (n / 10)).length + 1) + n := by
            rw [hdm, pow_succ]

theorem parseNatDigits_natToDecimal (n : Nat) : parseNatDigits (natToDecimal n) = some n := by
  by_cases h : n = 0
  · subst h; rfl
  · rw [natToDecimal, if_neg h, parseNatDigits,
      if_neg (natToDecimalGo_ne_nil h (by omega)),
      if_pos (natToDecimalGo_all_isDigit n n)]
    rw [natToDecimalGo_foldl n n 0 (le_refl n)]
    simp

theorem decompressGo_digits (ds : List Char) :
    ∀ (l acc : List Char), ds.all Char.isDigit = true →
      decompressGo (ds ++ l) acc = decompressGo l (acc ++ ds) := by
  induction ds with
  | nil => intro l acc _; simp
  | cons d ds ih =>
    intro l acc h
    rw [List.all_cons, Bool.and_eq_true] at h
    rw [List.cons_append, decompressGo, if_pos h.1, ih l (acc ++ [d]) h.2,
      List.append_assoc]
    rfl

theorem decompress_compressGo : ∀ (l : List Char) (c : Char) (count : Nat),
    (c :: l).all (fun x => !x.isDigit) = true → 1 ≤ count →
    decompressGo (compressGo (c :: l) count) [] = List.replicate (count - 1) c ++ (c :: l) := by
  intro l
  induction l with
  | nil =>
    intro c count h hc
    rw [List.all_cons, Bool.and_eq_true] at h
    have hcd : c.isDigit = false := by
      cases hd : c.isDigit
      · rfl
      · rw [hd] at h; exact absurd h.1 (by decide)
    by_cases h1 : 1 < count
    · rw [compressGo, if_pos h1,
        decompressGo_digits (natToDecimal count) [c] [] (by
          rw [natToDecimal, if_neg (by omega)]
          exact natToDecimalGo_all_isDigit count count)]
      rw [decompressGo, if_neg (by simp [hcd]), List.nil_append,
        parseNatDigits_natToDecimal count]
      show List.replicate count c ++ decompressGo [] [] = _
      rw [show decompressGo [] [] = [] from rfl, List.append_nil]
      rw [show count = (count - 1) + 1 by omega, List.replicate_succ']
      simp
    · have : count = 1 := by omega
      subst this
      rw [compressGo, if_neg h1]
      rw [List.nil_append, decompressGo, if_neg (by simp [hcd])]
      rfl
  | cons d rest ih =>
    intro c count h hc
    have hall := h
    rw [List.all_cons, Bool.and_eq_true] at h
    have hcd : c.isDigit = false := by
      cases hd : c.isDigit
      · rfl
      · rw [hd] at h; exact absurd h.1 (by decide)
    by_cases hcd2 : c = d
    · subst hcd2
      rw [compressGo]
      show decompressGo (if c = c then compressGo (c :: rest) (count + 1)
        else (if count > 1 then natToDecimal count else []) ++
          c :: compressGo (c :: rest) 1) [] = _
      rw [if_pos rfl, ih c (count + 1) h.2 (by omega)]
      rw [show count + 1 - 1 = (count - 1) + 1 by omega, List.replicate_succ']
      simp
    · rw [compressGo]
      show decompressGo (if c = d then compressGo (d :: rest) (count + 1)
        else (if count > 1 then natToDecimal count else []) ++
          c :: compressGo (d :: rest) 1) [] = _
      rw [if_neg hcd2]
      by_cases h1 : 1 < count
      · rw [if_pos h1,
          decompressGo_digits (natToDecimal count) (c :: compressGo (d :: rest) 1) [] (by
            rw [natToDecimal, if_neg (by omega)]
            exact natToDecimalGo_all_isDigit count count)]
        rw [decompressGo, if_neg (by simp [hcd]), List.nil_append,
          parseNatDigits_natToDecimal count]
        show List.replicate count c ++ decompressGo (compressGo (d :: rest) 1) [] = _
        rw [ih d 1 h.2 (by omega)]
        rw [show count = (count - 1) + 1 by omega, List.replicate_succ']
        simp
      · have : count = 1 := by omega
        subst this
        rw [if_neg h1, List.nil_append, decompressGo, if_neg (by simp [hcd])]
        show List.replicate 1 c ++ decompressGo (compressGo (d :: rest) 1) [] = _
        rw [ih d 1 h.2 (by omega)]
        rfl


/-- C6: the run-length codec round-trips on every digit-free string, the
empty string compresses to itself, and `"aaab"` compresses to `"3ab"`. -/
theorem C6_rle_roundtrip (s : String) (h : s.data.all (fun c => !c.isDigit) = true) :
    Map.decompress (Map.compress s) = s ∧ Map.compress "" = "" ∧ Map.compress "aaab" = "3ab" := by
  refine ⟨?_, rfl, by decide⟩
  obtain ⟨data⟩ := s
  show String.mk (decompressGo (compressGo data 1) []) = String.mk data
  cases data with
  | nil => rfl
  | cons c l =>
    rw [decompress_compressGo l c 1 h (le_refl 1)]
    rfl

theorem C6_witness :
    Map.decompress (Map.compress "xyyyz") = "xyyyz" ∧ Map.compress "" = "" ∧
      Map.compress "aaab" = "3ab" :=
  C6_rle_roundtrip "xyyyz" (by decide)

end Minigolf
